import Mathlib

/-!
Verification of the commensurability analysis engine
(`src/commensurability/analysis.py`, class `AnalysisBase`).

The Python class is shallowly embedded: the constructor `__init__` becomes
`AnalysisBase.init`, the grid traversal `_construct_image` becomes
`AnalysisBase._construct_image`, and the persistence layer `save` /
`read_from_hdf5` operates on a `Container` value standing for the HDF5
dataset together with its single flat attribute namespace `dset.attrs`.
Axis values and quantities are floats in the program and are both embedded
as rationals in the canonical unit; image cells (evaluation measures) are
drawn from a scalar type `α`, initial-condition coordinates live in `β`,
potentials in `π`, and integrated orbits in `γ`.  Python callables are
embedded as records carrying their name, their declared parameter list and
their denotation, so that `inspect.getfullargspec`, `inspect.getsource` and
the `exec`-based reconstruction on load can be modelled faithfully.  The
attribute namespace is one insertion-ordered mapping shared by the reserved
metadata keys and the per-axis value sequences: writing an axis whose name
collides with a reserved key overwrites that key, exactly as successive
`dset.attrs[attr] = value` assignments do in `save`.
-/

namespace Commensurability

/-- The closed set of orbit-integration backend implementations imported by
`analysis.py` from the external `pidgey` package
(`AgamaBackend`, `GalaBackend`, `GalpyBackend`). -/
inductive BackendInst
  | agama
  | gala
  | galpy
deriving DecidableEq, Repr

/-- A Python function together with the data `analysis.py` extracts from it:
its name (`__name__` / the name in its source text), the parameter names
reported by `inspect.getfullargspec(...).args`, and its denotation on a list
of positional arguments.  A `FuncSource` also stands for its own source text,
so `inspect.getsource` is the identity and re-`exec`-ing the text recovers
the same record. -/
structure FuncSource (α β : Type) where
  name : String
  args : List String
  fn : List α → β

/-- A zero-argument Python function (the potential constructor). -/
structure FuncSource0 (π : Type) where
  name : String
  fn : Unit → π

/-- A dense numpy array: its shape together with its cells in row-major
order. -/
structure ShapedArray (α : Type) where
  shape : List Nat
  data : List α
deriving DecidableEq, Repr

/-- The exceptions `AnalysisBase.__init__` can raise, in source order:
`ValueError("values and ic_function signature do not correspond")`,
a `KeyError` from `self.values[name]` (unreachable after the signature
check), `ValueError("dt must be greater than 0")`,
`ValueError("steps must be greater than 0")`,
`ValueError(f"Unrecognized backend: {backend}")` (the text holds the name),
`TypeError(f"Unrecognized potential: ...")`,
`ValueError("chunksize must be greater than 0")`, and
`ValueError("chunksize must be less than total number of starting
coordinates")`. -/
inductive InitError
  | valuesMismatch
  | keyError
  | dtNonpositive
  | stepsNonpositive
  | unrecognizedBackend (nm : String)
  | unrecognizedPotential
  | chunksizeNonpositive
  | chunksizeTooLarge
deriving DecidableEq, Repr

/-- The exceptions `read_from_hdf5` can raise before and around the
constructor call: `KeyError` from `f[cls.__name__]`; `KeyError` from
`namespace["ic_function"]` / `namespace["potential_function"]` after `exec`;
`KeyError` from `dset.attrs[name]` for an axis name (line 226); `KeyError`
from a missing reserved attribute (`backend` at 239, `dt`/`steps`/
`pattern_speed` at 244-246); an error raised when an attribute of the wrong
kind flows into decode/`exec`, into `len(...)`, or into a truth test
(`UnicodeDecodeError`, `SyntaxError`, `TypeError`, numpy's ambiguous-truth
`ValueError` — collapsed into one constructor, since only the fact of the
raise matters); `AttributeError` from `getattr(pidgey, ...)`; or an
exception propagated from `cls(...)`. -/
inductive LoadError
  | datasetKeyError
  | namespaceKeyError
  | axisAttrKeyError
  | attrKeyError
  | attrTypeError
  | backendAttributeError
  | initError (e : InitError)
deriving DecidableEq, Repr

variable {α β π γ γ2 : Type}

/-- Python dictionary lookup `d[k]` on an insertion-ordered association
list, returning `none` where Python raises `KeyError`. -/
def dictGet {v : Type} (values : List (String × v)) (k : String) : Option v :=
  (values.find? (fun p => p.1 == k)).map Prod.snd

/-- Left-to-right effectful traversal of a list under `Option`, modelling a
Python comprehension that raises on the first failing lookup. -/
def mapSome (g : α → Option β) : List α → Option (List β)
  | [] => some []
  | a :: as =>
    match g a, mapSome g as with
    | some b, some bs => some (b :: bs)
    | _, _ => none

/-- The constructor's signature check (analysis.py:89-91):
`len(self.values) == len(self.axis_names)` and every key of `values` occurs
among the parameter names of `ic_function`. -/
def valuesMatchSig (axis_names : List String) (values : List (String × List ℚ)) : Bool :=
  values.length == axis_names.length && values.all (fun p => axis_names.contains p.1)

/-- Modelled from the spec: the Quantity/Unit Adapter (`utils.make_quantity`,
whose source is not under `src/`) normalizes a scalar or already-dimensioned
input into the canonical internal unit (Gyr for `dt`, km/s/kpc for
`pattern_speed`).  Quantities are embedded as their numeric value in that
canonical unit, so normalization is the identity on the value. -/
def make_quantity (x : ℚ) : ℚ := x

/-- Modelled from the spec: `utils.collapse_coords` (not under `src/`)
collapses the per-pixel coordinates into a single batched coordinate
collection handed to the backend once per batch; the batch is embedded as
the ordered list of the coordinates. -/
def collapse_coords (coords : List β) : List β := coords

/-- Modelled from the spec: the backend contract (§6) — `compute_orbit`
consumes a batch of initial coordinates together with the potential, time
step, step count and pattern speed, and returns one integrated orbit per
input coordinate, in the same order.  A deterministic backend is embedded by
a per-coordinate orbit function `orbitFn`, mapped over the batch. -/
def compute_orbit (orbitFn : BackendInst → β → π → ℚ → Int → ℚ → γ)
    (self : BackendInst) (coords : List β) (potential : π) (dt : ℚ)
    (steps : Int) (pattern_speed : ℚ) : List γ :=
  coords.map (fun coord => orbitFn self coord potential dt steps pattern_speed)

/-- The name→implementation table of `__init__` (analysis.py:106-114) plus
the implicit resolution `backend or get_backend_from(self.potential)` and
the `if not self.backend: raise TypeError` that follow it
(analysis.py:115-117). -/
def resolveBackend (get_backend_from : π → Option BackendInst) (potential : π) :
    Option (String ⊕ BackendInst) → Except InitError BackendInst
  | some (Sum.inl s) =>
    if s = "agama" then Except.ok BackendInst.agama
    else if s = "gala" then Except.ok BackendInst.gala
    else if s = "galpy" then Except.ok BackendInst.galpy
    else Except.error (InitError.unrecognizedBackend s)
  | some (Sum.inr b) => Except.ok b
  | none =>
    match get_backend_from potential with
    | some b => Except.ok b
    | none => Except.error InitError.unrecognizedPotential

/-- The grid shape an initial-condition constructor and an axis mapping
determine: the per-axis value-sequence lengths listed in the order of the
constructor's declared parameters (analysis.py:93). -/
def gridShape (ic_function : FuncSource ℚ β) (values : List (String × List ℚ)) : List Nat :=
  ic_function.args.map (fun nm => ((dictGet values nm).getD []).length)

/-- The grid size `size = prod(self.shape)` (analysis.py:94). -/
def gridSize (ic_function : FuncSource ℚ β) (values : List (String × List ℚ)) : Nat :=
  (gridShape ic_function values).prod

/-- The state of a constructed `AnalysisBase` instance: the attributes
`__init__` assigns. -/
structure AnalysisState (α β π : Type) where
  ic_function : FuncSource ℚ β
  axis_names : List String
  values : List (String × List ℚ)
  shape : List Nat
  size : Nat
  potential_function : FuncSource0 π
  potential : π
  dt : ℚ
  steps : Int
  pattern_speed : ℚ
  backend : BackendInst
  image : ShapedArray α

/-- One value of the flat `dset.attrs` namespace: the stored source text of
the initial-condition constructor (`icfunc`, an `np.void` blob), the stored
source text of the potential constructor (`potfunc`), a scalar quantity
stripped to its value (`dt`, `pattern_speed`), an integer (`steps`), a text
blob (`backend`, the class name), or one axis's value sequence (a float
array). -/
inductive AttrValue (β π : Type)
  | icfuncSrc (src : FuncSource ℚ β)
  | potfuncSrc (src : FuncSource0 π)
  | quantity (q : ℚ)
  | intVal (n : Int)
  | textBlob (s : String)
  | axisValues (vs : List ℚ)

/-- Attribute assignment `dset.attrs[k] = v` (and Python dict assignment):
overwrite the entry in place when the key is already present, append it
otherwise. -/
def attrsSet {v : Type} (m : List (String × v)) (k : String) (val : v) :
    List (String × v) :=
  if (m.find? (fun p => p.1 == k)).isSome
  then m.map (fun p => if p.1 == k then (k, val) else p)
  else m ++ [(k, val)]

/-- The reserved metadata keys `save` writes before the axis entries
(analysis.py:185-192). -/
def reservedAttrKeys : List String :=
  ["icfunc", "potfunc", "dt", "steps", "pattern_speed", "backend"]

/-- The HDF5 file written by `save`: a single named dataset holding the
image array, plus the dataset's one flat attribute namespace `dset.attrs` —
an insertion-ordered mapping shared by the reserved metadata entries and
the per-axis value sequences.  An axis whose name equals a reserved key
occupies the same slot. -/
structure Container (α β π : Type) where
  datasetName : String
  image : ShapedArray α
  attrs : List (String × AttrValue β π)

/-- The backend class name a container stores, when its `backend` attribute
holds a text blob — the string
`dset.attrs["backend"].tobytes().decode("utf8")` yields on load. -/
def storedBackendName (f : Container α β π) : Option String :=
  match dictGet f.attrs "backend" with
  | some (AttrValue.textBlob s) => some s
  | _ => none

/-- Reading `dset.attrs["dt"]` / `dset.attrs["pattern_speed"]`
(analysis.py:244,246): a stored quantity (or a plain number) passes its
value to the constructor.  A one-element axis sequence stored over the key
(an axis/reserved-name collision) reaches the constructor as a one-element
float array whose value is what the positivity check and every later
comparison observe — embedded by its element.  A missing key raises
`KeyError`; any other attribute kind makes the constructor's truth test
raise (numpy's ambiguous-truth `ValueError` for longer arrays, `TypeError`
for blobs) — embedded as `attrTypeError`. -/
def attrAsQuantity : Option (AttrValue β π) → Except LoadError ℚ
  | some (AttrValue.quantity q) => Except.ok q
  | some (AttrValue.intVal n) => Except.ok (n : ℚ)
  | some (AttrValue.axisValues [q]) => Except.ok q
  | some _ => Except.error LoadError.attrTypeError
  | none => Except.error LoadError.attrKeyError

/-- Reading `dset.attrs["steps"]` (analysis.py:245): an integer passes
through; a missing key raises `KeyError`; any other kind is embedded as a
type mismatch (the embedding's step count is an integer, so a float array
stored over `steps` is reported here rather than carried along). -/
def attrAsInt : Option (AttrValue β π) → Except LoadError Int
  | some (AttrValue.intVal n) => Except.ok n
  | some _ => Except.error LoadError.attrTypeError
  | none => Except.error LoadError.attrKeyError

/-- Reading `dset.attrs["backend"]` (analysis.py:239): a text blob decodes
to the stored class name; a missing key raises `KeyError`; decoding any
other attribute kind fails — embedded as `attrTypeError`. -/
def attrAsText : Option (AttrValue β π) → Except LoadError String
  | some (AttrValue.textBlob s) => Except.ok s
  | some _ => Except.error LoadError.attrTypeError
  | none => Except.error LoadError.attrKeyError

/-- Embeds `np.ndindex(self.shape)`: all multi-indices of the grid in row-major
(C-style) order. -/
def ndindex : List Nat → List (List Nat)
  | [] => [[]]
  | n :: rest => (List.range n).flatMap (fun i => (ndindex rest).map (fun p => i :: p))

/-- Embeds `more_itertools.chunked`: successive batches of `c` elements, the final
batch possibly short.  `_construct_image` only ever receives a positive `c`
(enforced by the constructor's chunksize validation). -/
def chunkList (c : Nat) : List β → List (List β)
  | [] => []
  | x :: xs => (x :: xs.take (c - 1)) :: chunkList c (xs.drop (c - 1))
termination_by l => l.length
decreasing_by
  simp only [List.length_drop, List.length_cons]
  omega

/-- Row-major flattened position of a multi-index inside an array of the
given shape (how `self.image[pixel] = ...` addresses one cell). -/
def flatIndex : List Nat → List Nat → Nat
  | _ :: ns, i :: is => i * ns.prod + flatIndex ns is
  | _, _ => 0

/-- The parameter list `[self.values[ax][i] for i, ax in zip(pixel, self.axis_names)]`
(analysis.py:144); out-of-range accesses cannot occur for pixels drawn from
`np.ndindex(self.shape)`. -/
def pixelParams (self : AnalysisState α β π) (pixel : List Nat) : List ℚ :=
  (pixel.zip self.axis_names).map (fun q => ((dictGet self.values q.2).getD []).getD q.1 0)

/-- Embeds `AnalysisBase._construct_image` (analysis.py:128-163): traverse
`np.ndindex(self.shape)` in batches of `chunksize`; for each batch expand
every pixel to an initial-condition coordinate, collapse the coordinates,
call the backend once, then write each orbit's evaluation measure into the
image at that pixel.  `measure` composes the subtype's pluggable `evaluate`
strategy with `.measure` (spec §6); the progress bars have no effect on the
result. -/
def AnalysisBase._construct_image
    (orbitFn : BackendInst → β → π → ℚ → Int → ℚ → γ) (measure : γ → α)
    (self : AnalysisState α β π) (chunksize : Nat) (_progressbar : Bool) : List α :=
  (chunkList chunksize (ndindex self.shape)).foldl
    (fun image pixels =>
      let coords := pixels.map (fun pixel => self.ic_function.fn (pixelParams self pixel))
      let orbits := compute_orbit orbitFn self.backend (collapse_coords coords)
        self.potential self.dt self.steps self.pattern_speed
      (pixels.zip orbits).foldl
        (fun image po => image.set (flatIndex self.shape po.1) (measure po.2))
        image)
    self.image.data

/-- The record of attribute assignments `__init__` performs on a successful
run, with the image still at `np.zeros(self.shape)`. -/
def AnalysisBase.initState [Zero α] (ic_function : FuncSource ℚ β)
    (values : List (String × List ℚ)) (potential_function : FuncSource0 π)
    (dt : ℚ) (steps : Int) (pattern_speed : ℚ) (b : BackendInst)
    (shape : List Nat) : AnalysisState α β π :=
  { ic_function := ic_function
    axis_names := ic_function.args
    values := values
    shape := shape
    size := shape.prod
    potential_function := potential_function
    potential := potential_function.fn ()
    dt := make_quantity dt
    steps := steps
    pattern_speed := make_quantity pattern_speed
    backend := b
    image := ⟨shape, List.replicate shape.prod 0⟩ }

/-- Embeds `AnalysisBase.__init__` (analysis.py:56-126), in source order: signature
check, shape and size, the call `potential_function()`, the `dt` and `steps`
validations, backend resolution, the two chunksize validations, the zero
image, and — unless `_blank_image` — the call to `_construct_image`.  The
second component counts how many times `potential_function` has been
invoked when the constructor returns or raises. -/
def AnalysisBase.init [Zero α] (get_backend_from : π → Option BackendInst)
    (orbitFn : BackendInst → β → π → ℚ → Int → ℚ → γ) (measure : γ → α)
    (ic_function : FuncSource ℚ β) (values : List (String × List ℚ))
    (potential_function : FuncSource0 π) (dt : ℚ) (steps : Int) (pattern_speed : ℚ)
    (backend : Option (String ⊕ BackendInst)) (chunksize : Int)
    (progressbar : Bool) (blank_image : Bool) :
    Except InitError (AnalysisState α β π) × Nat :=
  let axis_names := ic_function.args
  if valuesMatchSig axis_names values = false then
    (Except.error InitError.valuesMismatch, 0)
  else
    match mapSome (fun nm => (dictGet values nm).map List.length) axis_names with
    | none => (Except.error InitError.keyError, 0)
    | some shape =>
      let size := shape.prod
      let potential := potential_function.fn ()
      let dtq := make_quantity dt
      if dtq ≤ 0 then (Except.error InitError.dtNonpositive, 1)
      else if steps ≤ 0 then (Except.error InitError.stepsNonpositive, 1)
      else
        match resolveBackend get_backend_from potential backend with
        | Except.error e => (Except.error e, 1)
        | Except.ok b =>
          if chunksize ≤ 0 then (Except.error InitError.chunksizeNonpositive, 1)
          else if (size : Int) ≤ chunksize then (Except.error InitError.chunksizeTooLarge, 1)
          else
            let st : AnalysisState α β π :=
              AnalysisBase.initState ic_function values potential_function dt steps
                pattern_speed b shape
            if blank_image then (Except.ok st, 1)
            else
              (Except.ok { st with
                image := ⟨shape,
                  AnalysisBase._construct_image orbitFn measure st chunksize.toNat
                    progressbar⟩ }, 1)

/-- Embeds `self.backend.__class__.__name__`: the implementation name `save` stores
in the `backend` attribute (analysis.py:191). -/
def backendClassName : BackendInst → String
  | BackendInst.agama => "AgamaBackend"
  | BackendInst.gala => "GalaBackend"
  | BackendInst.galpy => "GalpyBackend"

/-- Embeds `getattr(pidgey, ...)` (analysis.py:239): attribute lookup on the
external `pidgey` module, which exposes the three backend classes imported
at analysis.py:25; an unknown attribute raises `AttributeError`, embedded as
`none`. -/
def pidgeyAttr : String → Option BackendInst
  | "AgamaBackend" => some BackendInst.agama
  | "GalaBackend" => some BackendInst.gala
  | "GalpyBackend" => some BackendInst.galpy
  | _ => none

/-- The six reserved attribute entries of the `attrs` dict of `save`
(analysis.py:185-192), written first: the two constructor sources with
their original names replaced (first occurrence) by the canonical
placeholder names, the time step, step count, pattern speed, and the
backend class name. -/
def reservedAttrs (self : AnalysisState α β π) : List (String × AttrValue β π) :=
  [("icfunc",
    AttrValue.icfuncSrc
      { name := "ic_function", args := self.ic_function.args,
        fn := self.ic_function.fn }),
   ("potfunc",
    AttrValue.potfuncSrc
      { name := "potential_function", fn := self.potential_function.fn }),
   ("dt", AttrValue.quantity self.dt),
   ("steps", AttrValue.intVal self.steps),
   ("pattern_speed", AttrValue.quantity self.pattern_speed),
   ("backend", AttrValue.textBlob (backendClassName self.backend))]

/-- The full attribute namespace `save` leaves on the dataset: the reserved
entries (analysis.py:195-196), then one `dset.attrs[attr] = value`
assignment per axis (analysis.py:197-198) — each assignment overwriting any
earlier entry of the same name, so an axis named like a reserved key
clobbers it. -/
def savedAttrs (self : AnalysisState α β π) : List (String × AttrValue β π) :=
  self.values.foldl (fun m p => attrsSet m p.1 (AttrValue.axisValues p.2))
    (reservedAttrs self)

/-- Embeds `AnalysisBase.save` (analysis.py:165-198): one dataset named after the
concrete analysis class holding the image, carrying the flat attribute
namespace `savedAttrs` describes. -/
def AnalysisBase.save (className : String) (self : AnalysisState α β π) :
    Container α β π :=
  { datasetName := className
    image := self.image
    attrs := savedAttrs self }

/-- Embeds `AnalysisBase.read_from_hdf5` (analysis.py:200-251): open the dataset
named after the requesting class; if the `icfunc` attribute is present,
decode and `exec` it and take `namespace["ic_function"]`, otherwise warn
("No potential function defined.") and substitute a no-argument no-op;
recover axis names from the reconstructed constructor's parameters and the
axis values from the same flat attribute namespace (an axis attribute that
does not hold a value sequence makes the constructor's `len(...)` raise —
surfaced where the typed embedding separates collection from measuring);
treat `potfunc` the same way; decode the `backend` attribute and resolve it
through `getattr(pidgey, ...)`; read `dt`, `steps` and `pattern_speed` from
the same namespace; call the constructor with `_blank_image=True` and the
default `chunksize=1`; finally overwrite the instance's image with the
stored dataset array verbatim.  The first component collects the emitted
warnings. -/
def AnalysisBase.read_from_hdf5 [Zero α] [Inhabited β] [Inhabited π]
    (className : String) (get_backend_from : π → Option BackendInst)
    (orbitFn : BackendInst → β → π → ℚ → Int → ℚ → γ) (measure : γ → α)
    (f : Container α β π) :
    List String × Except LoadError (AnalysisState α β π) :=
  if className = f.datasetName then
    let icw : List String × Except LoadError (FuncSource ℚ β) :=
      match dictGet f.attrs "icfunc" with
      | some (AttrValue.icfuncSrc source) =>
        ([], if source.name = "ic_function" then Except.ok source
             else Except.error LoadError.namespaceKeyError)
      | some _ => ([], Except.error LoadError.attrTypeError)
      | none =>
        (["No potential function defined."],
         Except.ok { name := "ic_function", args := [], fn := fun _ => default })
    match icw.2 with
    | Except.error e => (icw.1, Except.error e)
    | Except.ok ic_function =>
      let axis_names := ic_function.args
      match mapSome (fun nm => (dictGet f.attrs nm).map (fun v => (nm, v))) axis_names with
      | none => (icw.1, Except.error LoadError.axisAttrKeyError)
      | some rawValues =>
        match mapSome (fun p =>
            match p.2 with
            | AttrValue.axisValues vs => some (p.1, vs)
            | _ => none) rawValues with
        | none => (icw.1, Except.error LoadError.attrTypeError)
        | some values =>
          let potw : List String × Except LoadError (FuncSource0 π) :=
            match dictGet f.attrs "potfunc" with
            | some (AttrValue.potfuncSrc source) =>
              ([], if source.name = "potential_function" then Except.ok source
                   else Except.error LoadError.namespaceKeyError)
            | some _ => ([], Except.error LoadError.attrTypeError)
            | none =>
              (["No potential function defined."],
               Except.ok { name := "potential_function", fn := fun _ => default })
          let warns := icw.1 ++ potw.1
          match potw.2 with
          | Except.error e => (warns, Except.error e)
          | Except.ok potential_function =>
            match attrAsText (dictGet f.attrs "backend") with
            | Except.error e => (warns, Except.error e)
            | Except.ok backend_name =>
              match pidgeyAttr backend_name with
              | none => (warns, Except.error LoadError.backendAttributeError)
              | some backend_cls =>
                match attrAsQuantity (dictGet f.attrs "dt") with
                | Except.error e => (warns, Except.error e)
                | Except.ok dtv =>
                  match attrAsInt (dictGet f.attrs "steps") with
                  | Except.error e => (warns, Except.error e)
                  | Except.ok stepsv =>
                    match attrAsQuantity (dictGet f.attrs "pattern_speed") with
                    | Except.error e => (warns, Except.error e)
                    | Except.ok psv =>
                      match (AnalysisBase.init get_backend_from orbitFn measure
                          ic_function values potential_function dtv stepsv psv
                          (some (Sum.inr backend_cls)) 1 true true).1 with
                      | Except.error e => (warns, Except.error (LoadError.initError e))
                      | Except.ok analysis =>
                        (warns, Except.ok { analysis with image := f.image })
  else ([], Except.error LoadError.datasetKeyError)

/-! ### Helper lemmas -/

/-- The batches produced by `chunkList` partition the input: concatenating
them restores the traversal order. -/
theorem chunkList_flatten (c : Nat) : ∀ (l : List β), (chunkList c l).flatten = l
  | [] => by simp [chunkList]
  | x :: xs => by
    rw [chunkList]
    simp only [List.flatten_cons]
    rw [chunkList_flatten c (xs.drop (c - 1)), List.cons_append, List.take_append_drop]
termination_by l => l.length
decreasing_by
  simp only [List.length_drop, List.length_cons]
  omega

/-- Zipping a list with its own image under a map pairs each element with
its image. -/
theorem zip_map_self (l : List β) (f : β → γ) :
    l.zip (l.map f) = l.map (fun a => (a, f a)) := by
  induction l with
  | nil => rfl
  | cons x xs ih => simp [ih]

/-- The traversal `mapSome` only depends on the values of its function on the list. -/
theorem mapSome_congr {g₁ g₂ : α → Option β} : ∀ {l : List α},
    (∀ a ∈ l, g₁ a = g₂ a) → mapSome g₁ l = mapSome g₂ l
  | [], _ => rfl
  | a :: as, h => by
    rw [mapSome, mapSome, h a (List.mem_cons_self a as),
      mapSome_congr (fun b hb => h b (List.mem_cons_of_mem a hb))]

/-- A successful `mapSome` run teaches us the result is the pointwise
defaulted map (every lookup succeeded). -/
theorem mapSome_eq_getD_map {g : α → Option β} (d : β) : ∀ {l : List α} {L : List β},
    mapSome g l = some L → L = l.map (fun a => (g a).getD d)
  | [], L, h => by
    rw [mapSome] at h
    cases h
    rfl
  | a :: as, L, h => by
    rw [mapSome] at h
    cases hga : g a with
    | none => rw [hga] at h; cases h
    | some b0 =>
      rw [hga] at h
      cases hgas : mapSome g as with
      | none => rw [hgas] at h; cases h
      | some bs =>
        rw [hgas] at h
        cases h
        rw [List.map_cons, hga, ← mapSome_eq_getD_map d hgas]
        rfl

/-- A successful dictionary lookup names an entry of the list. -/
theorem dictGet_mem {v : Type} {m : List (String × v)} {k : String} {val : v}
    (h : dictGet m k = some val) : (k, val) ∈ m := by
  unfold dictGet at h
  cases hf : m.find? (fun p => p.1 == k) with
  | none => rw [hf] at h; cases h
  | some q =>
    rw [hf] at h
    injection h with h2
    have hq0 := List.find?_some hf
    have hq : q.1 = k := by simpa using hq0
    have hqm : q ∈ m := List.mem_of_find?_eq_some hf
    cases q with
    | mk q1 q2 =>
      cases hq
      cases h2
      exact hqm

/-- Overwriting a key in place, then searching for that key, finds the new
value wherever the key occurred. -/
theorem find_map_overwrite {v : Type} (k : String) (val : v) :
    ∀ m : List (String × v),
    (m.map (fun p => if p.1 == k then (k, val) else p)).find? (fun p => p.1 == k) =
      (m.find? (fun p => p.1 == k)).map (fun _ => (k, val))
  | [] => rfl
  | p :: ps => by
    cases hp : (p.1 == k) with
    | true =>
      rw [List.map_cons, if_pos hp, List.find?_cons, List.find?_cons, hp,
        show (((k, val) : String × v).1 == k) = true from by simp]
      rfl
    | false =>
      rw [List.map_cons, if_neg (show ¬(p.1 == k) = true by simp [hp]),
        List.find?_cons, List.find?_cons, hp]
      exact find_map_overwrite k val ps

/-- Overwriting one key leaves searches for a different key unchanged. -/
theorem find_map_overwrite_other {v : Type} (k k2 : String) (val : v) (hne : k2 ≠ k) :
    ∀ m : List (String × v),
    (m.map (fun p => if p.1 == k then (k, val) else p)).find? (fun p => p.1 == k2) =
      m.find? (fun p => p.1 == k2)
  | [] => rfl
  | p :: ps => by
    cases hp : (p.1 == k) with
    | true =>
      have hp1 : p.1 = k := by simpa using hp
      have hk2 : ((k, val).1 == k2) = false := by
        simp only [beq_eq_false_iff_ne, ne_eq]
        exact fun he => hne he.symm
      have hp2 : (p.1 == k2) = false := by
        rw [hp1]
        simp only [beq_eq_false_iff_ne, ne_eq]
        exact fun he => hne he.symm
      rw [List.map_cons, if_pos hp, List.find?_cons, List.find?_cons, hk2, hp2]
      exact find_map_overwrite_other k k2 val hne ps
    | false =>
      cases hp2 : (p.1 == k2) with
      | true =>
        rw [List.map_cons, if_neg (show ¬(p.1 == k) = true by simp [hp]),
          List.find?_cons, List.find?_cons, hp2]
      | false =>
        rw [List.map_cons, if_neg (show ¬(p.1 == k) = true by simp [hp]),
          List.find?_cons, List.find?_cons, hp2]
        exact find_map_overwrite_other k k2 val hne ps

/-- Assignment then lookup of the same key yields the assigned value. -/
theorem dictGet_attrsSet_self {v : Type} (m : List (String × v)) (k : String) (val : v) :
    dictGet (attrsSet m k val) k = some val := by
  unfold attrsSet
  split
  next hsome =>
    unfold dictGet
    rw [find_map_overwrite]
    cases hf : m.find? (fun p => p.1 == k) with
    | none => rw [hf] at hsome; exact Bool.noConfusion hsome
    | some q => rfl
  next hnone =>
    unfold dictGet
    rw [List.find?_append]
    cases hf : m.find? (fun p => p.1 == k) with
    | none => simp [List.find?]
    | some q => exact absurd (by rw [hf]; rfl) hnone

/-- Assignment leaves lookups of other keys unchanged. -/
theorem dictGet_attrsSet_other {v : Type} (m : List (String × v)) (k k2 : String)
    (val : v) (hne : k2 ≠ k) : dictGet (attrsSet m k val) k2 = dictGet m k2 := by
  unfold attrsSet
  split
  · unfold dictGet
    rw [find_map_overwrite_other k k2 val hne]
  · unfold dictGet
    rw [List.find?_append]
    have hk2 : ((k, val).1 == k2) = false := by
      simp only [beq_eq_false_iff_ne, ne_eq]
      exact fun he => hne he.symm
    have h2 : List.find? (fun p => p.1 == k2) [(k, val)] = none := by
      simp [List.find?, hk2]
    rw [h2]
    cases m.find? (fun p => p.1 == k2) <;> rfl

/-- The axis-attribute writes of `save` leave every key outside the written
axis names untouched. -/
theorem dictGet_setAll_not_mem {l : List (String × List ℚ)}
    (m0 : List (String × AttrValue β π)) (k : String) (hk : k ∉ l.map Prod.fst) :
    dictGet (l.foldl (fun m p => attrsSet m p.1 (AttrValue.axisValues p.2)) m0) k =
      dictGet m0 k := by
  induction l generalizing m0 with
  | nil => rfl
  | cons p ps ih =>
    rw [List.foldl_cons]
    rw [ih _ (fun h => hk (List.mem_cons_of_mem _ h))]
    exact dictGet_attrsSet_other _ _ _ _
      (fun he => hk (by rw [List.map_cons, he]; exact List.mem_cons_self _ _))

/-- After the axis-attribute writes of `save`, every written axis name holds
its value sequence (keys are distinct, as Python dict keys are). -/
theorem dictGet_setAll_mem : ∀ {l : List (String × List ℚ)}
    (m0 : List (String × AttrValue β π)) {k : String} {vs : List ℚ},
    (l.map Prod.fst).Nodup → (k, vs) ∈ l →
    dictGet (l.foldl (fun m p => attrsSet m p.1 (AttrValue.axisValues p.2)) m0) k =
      some (AttrValue.axisValues vs)
  | [], _, _, _, _, hm => absurd hm (List.not_mem_nil _)
  | p :: ps, m0, k, vs, hnd, hm => by
    rw [List.foldl_cons]
    rcases List.mem_cons.mp hm with he | hm2
    · subst he
      have hk : k ∉ ps.map Prod.fst := by
        rw [List.map_cons] at hnd
        exact (List.nodup_cons.mp hnd).1
      rw [dictGet_setAll_not_mem _ _ hk]
      exact dictGet_attrsSet_self m0 k (AttrValue.axisValues vs)
    · exact dictGet_setAll_mem _ (by rw [List.map_cons] at hnd; exact hnd.of_cons) hm2

/-- The axis metadata recovered through the flat attribute namespace left by
`save`: for the axis-name list of the stored constructor, the two
collection stages succeed and recover exactly the per-axis sequences the
engine was saved with. -/
theorem load_values_flat : ∀ (args : List String) (vals : List (String × List ℚ))
    (m0 : List (String × AttrValue β π)) (shape : List Nat),
    (vals.map Prod.fst).Nodup →
    mapSome (fun nm => (dictGet vals nm).map List.length) args = some shape →
    ∃ (raw : List (String × AttrValue β π)) (values2 : List (String × List ℚ)),
      mapSome (fun nm =>
        (dictGet (vals.foldl (fun m p => attrsSet m p.1 (AttrValue.axisValues p.2)) m0)
          nm).map (fun v => (nm, v))) args = some raw ∧
      mapSome (fun p =>
        match p.2 with
        | AttrValue.axisValues vs => some (p.1, vs)
        | _ => none) raw = some values2 ∧
      values2.map Prod.fst = args ∧
      (∀ m ∈ args, dictGet values2 m = dictGet vals m)
  | [], vals, m0, shape, _, _ => ⟨[], [], rfl, rfl, rfl, by intro m hm; cases hm⟩
  | a :: as, vals, m0, shape, hnd, h => by
    rw [mapSome] at h
    cases hga : dictGet vals a with
    | none => rw [hga] at h; cases h
    | some v =>
      rw [hga] at h
      cases hgas : mapSome (fun nm => (dictGet vals nm).map List.length) as with
      | none => rw [hgas] at h; cases h
      | some shp => ?_
      obtain ⟨raw2, values2, h1, h2, h3, h4⟩ := load_values_flat as vals m0 shp hnd hgas
      have hfold : dictGet
          (vals.foldl (fun m p => attrsSet m p.1 (AttrValue.axisValues p.2)) m0) a =
          some (AttrValue.axisValues v) :=
        dictGet_setAll_mem m0 hnd (dictGet_mem hga)
      refine ⟨(a, AttrValue.axisValues v) :: raw2, (a, v) :: values2, ?_, ?_, ?_, ?_⟩
      · rw [mapSome, hfold, h1]
        rfl
      · rw [mapSome, h2]
      · rw [List.map_cons, h3]
      · intro m hm
        rw [dictGet, List.find?_cons]
        by_cases hma : a = m
        · subst hma
          rw [show (((a, v) : String × List ℚ).1 == a) = true from by simp]
          exact hga.symm
        · rw [show (((a, v) : String × List ℚ).1 == m) = false from by
            simp only [beq_eq_false_iff_ne, ne_eq]; exact hma]
          have hmas : m ∈ as := by
            rcases List.mem_cons.mp hm with h' | h'
            · exact absurd h'.symm hma
            · exact h'
          exact h4 m hmas

/-- The lookup table used on load inverts the class name `save` stores. -/
theorem pidgeyAttr_backendClassName (b : BackendInst) :
    pidgeyAttr (backendClassName b) = some b := by
  cases b <;> rfl

/-- Only the three backend class names resolve through the pidgey module in
this embedding. -/
theorem pidgeyAttr_inv {s : String} {b : BackendInst} (h : pidgeyAttr s = some b) :
    s = "AgamaBackend" ∨ s = "GalaBackend" ∨ s = "GalpyBackend" := by
  unfold pidgeyAttr at h
  split at h
  · exact Or.inl rfl
  · exact Or.inr (Or.inl rfl)
  · exact Or.inr (Or.inr rfl)
  · cases h

/-- A successful backend-attribute decode means the attribute holds exactly
that text blob. -/
theorem attrAsText_ok_inv {o : Option (AttrValue β π)} {s : String}
    (h : attrAsText o = Except.ok s) : o = some (AttrValue.textBlob s) := by
  unfold attrAsText at h
  split at h
  next s2 =>
    injection h with h2
    rw [h2]
  next => cases h
  next => cases h

/-- Successful construction in blank mode: the constructor returns exactly
the attribute record, calling the potential constructor once. -/
theorem init_ok_blank [Zero α] (gbf : π → Option BackendInst)
    (orbitFn : BackendInst → β → π → ℚ → Int → ℚ → γ) (measure : γ → α)
    (ic : FuncSource ℚ β) (vals : List (String × List ℚ)) (pf : FuncSource0 π)
    (dt : ℚ) (steps : Int) (ps : ℚ) (bk : Option (String ⊕ BackendInst))
    (ck : Int) (pb : Bool) {b : BackendInst} {shape : List Nat}
    (hsig : valuesMatchSig ic.args vals = true)
    (hshape : mapSome (fun nm => (dictGet vals nm).map List.length) ic.args = some shape)
    (hdt : 0 < make_quantity dt) (hsteps : 0 < steps)
    (hb : resolveBackend gbf (pf.fn ()) bk = Except.ok b)
    (hck1 : 0 < ck) (hck2 : ck < (shape.prod : Int)) :
    AnalysisBase.init (α := α) gbf orbitFn measure ic vals pf dt steps ps bk ck pb true =
      (Except.ok (AnalysisBase.initState ic vals pf dt steps ps b shape), 1) := by
  simp [AnalysisBase.init, hsig, hshape, hb, not_le.mpr hdt, not_le.mpr hsteps,
    not_le.mpr hck1, not_le.mpr hck2]
  rw [← Nat.cast_list_prod]
  exact hck2

/-- Successful construction in compute mode: the same record, with the image
produced by `_construct_image`. -/
theorem init_ok_compute [Zero α] (gbf : π → Option BackendInst)
    (orbitFn : BackendInst → β → π → ℚ → Int → ℚ → γ) (measure : γ → α)
    (ic : FuncSource ℚ β) (vals : List (String × List ℚ)) (pf : FuncSource0 π)
    (dt : ℚ) (steps : Int) (ps : ℚ) (bk : Option (String ⊕ BackendInst))
    (ck : Int) (pb : Bool) {b : BackendInst} {shape : List Nat}
    (hsig : valuesMatchSig ic.args vals = true)
    (hshape : mapSome (fun nm => (dictGet vals nm).map List.length) ic.args = some shape)
    (hdt : 0 < make_quantity dt) (hsteps : 0 < steps)
    (hb : resolveBackend gbf (pf.fn ()) bk = Except.ok b)
    (hck1 : 0 < ck) (hck2 : ck < (shape.prod : Int)) :
    AnalysisBase.init (α := α) gbf orbitFn measure ic vals pf dt steps ps bk ck pb false =
      (Except.ok { AnalysisBase.initState (α := α) ic vals pf dt steps ps b shape with
        image := ⟨shape, AnalysisBase._construct_image orbitFn measure
          (AnalysisBase.initState (α := α) ic vals pf dt steps ps b shape) ck.toNat pb⟩ },
       1) := by
  simp [AnalysisBase.init, hsig, hshape, hb, not_le.mpr hdt, not_le.mpr hsteps,
    not_le.mpr hck1, not_le.mpr hck2]
  rw [← Nat.cast_list_prod]
  exact hck2

/-- Inversion of a successful construction: every validation passed, and the
attributes are the ones `__init__` assigns. -/
theorem init_ok_inv [Zero α] {gbf : π → Option BackendInst}
    {orbitFn : BackendInst → β → π → ℚ → Int → ℚ → γ} {measure : γ → α}
    {ic : FuncSource ℚ β} {vals : List (String × List ℚ)} {pf : FuncSource0 π}
    {dt : ℚ} {steps : Int} {ps : ℚ} {bk : Option (String ⊕ BackendInst)}
    {ck : Int} {pb blank : Bool} {st : AnalysisState α β π}
    (h : (AnalysisBase.init gbf orbitFn measure ic vals pf dt steps ps bk ck pb
      blank).1 = Except.ok st) :
    valuesMatchSig ic.args vals = true ∧
    mapSome (fun nm => (dictGet vals nm).map List.length) ic.args = some st.shape ∧
    0 < make_quantity dt ∧ 0 < steps ∧
    resolveBackend gbf (pf.fn ()) bk = Except.ok st.backend ∧
    0 < ck ∧ ck < (st.shape.prod : Int) ∧
    st.ic_function = ic ∧ st.axis_names = ic.args ∧ st.values = vals ∧
    st.size = st.shape.prod ∧ st.potential_function = pf ∧
    st.dt = make_quantity dt ∧ st.steps = steps ∧
    st.pattern_speed = make_quantity ps ∧ st.image.shape = st.shape := by
  by_cases hsig : valuesMatchSig ic.args vals = true
  case neg =>
    rw [Bool.not_eq_true] at hsig
    simp [AnalysisBase.init, hsig] at h
  cases hshape : mapSome (fun nm => (dictGet vals nm).map List.length) ic.args with
  | none => simp [AnalysisBase.init, hsig, hshape] at h
  | some shape =>
  by_cases hdt : make_quantity dt ≤ 0
  · simp [AnalysisBase.init, hsig, hshape, hdt] at h
  by_cases hsteps : steps ≤ 0
  · simp [AnalysisBase.init, hsig, hshape, not_le.mp (fun hc => hdt hc), hdt, hsteps] at h
  cases hb : resolveBackend gbf (pf.fn ()) bk with
  | error e => simp [AnalysisBase.init, hsig, hshape, hdt, hsteps, hb] at h
  | ok b =>
  by_cases hck1 : ck ≤ 0
  · simp [AnalysisBase.init, hsig, hshape, hdt, hsteps, hb, hck1] at h
  by_cases hck2 : (shape.prod : Int) ≤ ck
  · have hck2n : (shape.map (Nat.cast : Nat → Int)).prod ≤ ck := by
      rw [← Nat.cast_list_prod]
      exact hck2
    simp [AnalysisBase.init, hsig, hshape, hdt, hsteps, hb, hck1, hck2n] at h
  rw [not_le] at hdt hsteps hck1 hck2
  cases blank with
  | true =>
    rw [init_ok_blank gbf orbitFn measure ic vals pf dt steps ps bk ck pb hsig hshape
      hdt hsteps hb hck1 hck2] at h
    cases h
    refine ⟨hsig, ?_, hdt, hsteps, ?_, hck1, ?_, ?_, ?_, ?_, ?_, ?_, ?_, ?_, ?_, ?_⟩ <;>
      simp only [AnalysisBase.initState] <;>
      first
        | rfl
        | exact hshape
        | exact hb
        | exact hck2
  | false =>
    rw [init_ok_compute gbf orbitFn measure ic vals pf dt steps ps bk ck pb hsig hshape
      hdt hsteps hb hck1 hck2] at h
    cases h
    refine ⟨hsig, ?_, hdt, hsteps, ?_, hck1, ?_, ?_, ?_, ?_, ?_, ?_, ?_, ?_, ?_, ?_⟩ <;>
      simp only [AnalysisBase.initState] <;>
      first
        | rfl
        | exact hshape
        | exact hb
        | exact hck2

/-- The traversal `_construct_image` equals the unbatched row-major traversal: one write
per pixel, in `np.ndindex` order, independent of the batch size. -/
theorem construct_image_flat
    (orbitFn : BackendInst → β → π → ℚ → Int → ℚ → γ) (measure : γ → α)
    (st : AnalysisState α β π) (c : Nat) (pb : Bool) :
    AnalysisBase._construct_image orbitFn measure st c pb =
      (ndindex st.shape).foldl
        (fun image pixel => image.set (flatIndex st.shape pixel)
          (measure (orbitFn st.backend (st.ic_function.fn (pixelParams st pixel))
            st.potential st.dt st.steps st.pattern_speed)))
        st.image.data := by
  simp only [AnalysisBase._construct_image, compute_orbit, collapse_coords,
    List.map_map, zip_map_self, List.foldl_map, Function.comp]
  conv_rhs => rw [← chunkList_flatten c (ndindex st.shape), List.foldl_flatten]

/-- Inversion of a successful load: the returned instance carries the stored
array verbatim (analysis.py:250), and its backend is what the stored backend
class name resolves to through `getattr(pidgey, ...)` (analysis.py:239). -/
theorem read_ok_inv [Zero α] [Inhabited β] [Inhabited π]
    {className : String} {gbf : π → Option BackendInst}
    {orbitFn : BackendInst → β → π → ℚ → Int → ℚ → γ} {measure : γ → α}
    {f : Container α β π} {st : AnalysisState α β π}
    (h : (AnalysisBase.read_from_hdf5 className gbf orbitFn measure f).2 =
      Except.ok st) :
    st.image = f.image ∧ (storedBackendName f).bind pidgeyAttr = some st.backend := by
  by_cases hcn : className = f.datasetName
  case neg =>
    simp only [AnalysisBase.read_from_hdf5, if_neg hcn] at h
    cases h
  simp only [AnalysisBase.read_from_hdf5, if_pos hcn] at h
  split at h
  next e heq => cases h
  next ic hicw =>
    split at h
    next => cases h
    next rawValues hraw =>
      split at h
      next => cases h
      next values hvals =>
        split at h
        next e heq => cases h
        next pf hpotw =>
          split at h
          next e heq => cases h
          next backend_name hbn =>
            split at h
            next => cases h
            next backend_cls hbc =>
              split at h
              next e heq => cases h
              next dtv hdtv =>
                split at h
                next e heq => cases h
                next stepsv hsteps =>
                  split at h
                  next e heq => cases h
                  next psv hpsv =>
                    split at h
                    next e heq => cases h
                    next analysis hinit =>
                      injection h with h2
                      have hres := (init_ok_inv hinit).2.2.2.2.1
                      simp only [resolveBackend] at hres
                      injection hres with hres2
                      have hsb : storedBackendName f = some backend_name := by
                        rw [storedBackendName, attrAsText_ok_inv hbn]
                      refine ⟨?_, ?_⟩
                      · rw [← h2]
                      · rw [hsb, Option.some_bind, hbc, ← h2, hres2]

/-! ### Concrete test fixtures for witnesses and counterexamples -/

/-- A concrete two-parameter initial-condition constructor. -/
def exIc : FuncSource ℚ ℚ :=
  { name := "my_ic", args := ["x", "y"], fn := fun l => l.foldl (fun a b => a + b) 0 }

/-- Axis values for `exIc`, deliberately supplied in the order `y`, `x` —
the reverse of the constructor's declared parameter order. -/
def exVals : List (String × List ℚ) := [("y", [10, 20, 30]), ("x", [1, 2])]

/-- A concrete potential constructor over the trivial potential type. -/
def exPot : FuncSource0 Unit := { name := "my_pot", fn := fun _ => () }

/-- An implicit-resolution function that never matches. -/
def gbfNone : Unit → Option BackendInst := fun _ => none

/-- A deterministic backend whose orbit is the initial coordinate itself. -/
def orbId : BackendInst → ℚ → Unit → ℚ → Int → ℚ → ℚ :=
  fun _ coord _ _ _ _ => coord

/-- An evaluation strategy whose measure is the orbit value itself. -/
def measId : ℚ → ℚ := fun x => x

/-- An initial-condition constructor whose first parameter is named `dt` —
a legal Python signature whose axis name collides with the reserved
attribute key `dt` of `save`. -/
def exIcDt : FuncSource ℚ ℚ :=
  { name := "my_ic", args := ["dt", "x"], fn := fun l => l.foldl (fun a b => a + b) 0 }

/-- Axis values for `exIcDt`: the axis named `dt` carries the single value
2, distinct from the engine's time step 1. -/
def exValsDt : List (String × List ℚ) := [("dt", [2]), ("x", [1, 2, 3])]

/-! ### The claims -/

/-- Claim C6: for every valid axis/constructor pair (and otherwise valid run
parameters), the grid shape of the constructed engine equals the tuple of
per-axis value-sequence lengths reordered to the constructor's declared
parameter order — independently of the order the axes were supplied in —
and its size equals the product of those lengths. -/
theorem C6_shape_follows_constructor_order [Zero α]
    (gbf : π → Option BackendInst) (orbitFn : BackendInst → β → π → ℚ → Int → ℚ → γ)
    (measure : γ → α) (ic : FuncSource ℚ β) (vals : List (String × List ℚ))
    (pf : FuncSource0 π) (dt : ℚ) (steps : Int) (ps : ℚ)
    (bk : Option (String ⊕ BackendInst)) (ck : Int) (pb blank : Bool)
    (b : BackendInst) (shape : List Nat)
    (hsig : valuesMatchSig ic.args vals = true)
    (hshape : mapSome (fun nm => (dictGet vals nm).map List.length) ic.args = some shape)
    (hdt : 0 < make_quantity dt) (hsteps : 0 < steps)
    (hb : resolveBackend gbf (pf.fn ()) bk = Except.ok b)
    (hck1 : 0 < ck) (hck2 : ck < (shape.prod : Int)) :
    (AnalysisBase.init gbf orbitFn measure ic vals pf dt steps ps bk ck pb blank).1.map
      (fun st => (st.shape, st.size)) =
      Except.ok (gridShape ic vals, gridSize ic vals) := by
  have hgs : shape = gridShape ic vals := by
    rw [mapSome_eq_getD_map 0 hshape, gridShape]
    apply List.map_congr_left
    intro a _
    cases dictGet vals a <;> rfl
  cases blank with
  | true =>
    rw [init_ok_blank gbf orbitFn measure ic vals pf dt steps ps bk ck pb hsig hshape
      hdt hsteps hb hck1 hck2]
    simp [AnalysisBase.initState, Except.map, hgs, gridSize]
  | false =>
    rw [init_ok_compute gbf orbitFn measure ic vals pf dt steps ps bk ck pb hsig hshape
      hdt hsteps hb hck1 hck2]
    simp [AnalysisBase.initState, Except.map, hgs, gridSize]

/-- Witness for C6: a 2×3 grid whose axes were supplied in the order
`y`, `x` still yields the shape `[2, 3]` that follows the constructor's
parameter order `x`, `y`, with size 6. -/
theorem C6_witness :
    (AnalysisBase.init gbfNone orbId measId exIc exVals exPot 1 5 0
      (some (Sum.inl "galpy")) 1 true true).1.map (fun st => (st.shape, st.size)) =
      Except.ok (gridShape exIc exVals, gridSize exIc exVals) :=
  C6_shape_follows_constructor_order gbfNone orbId measId exIc exVals exPot 1 5 0
    (some (Sum.inl "galpy")) 1 true true BackendInst.galpy [2, 3] (by decide) (by decide)
    (by decide) (by decide) rfl (by decide) (by decide)

/-- Claim C7: whenever the supplied axis-name set does not equal the
constructor's declared parameter-name set (order-independent comparison; the
keys of a Python dict and the parameters of a Python signature are
distinct), construction fails with the configuration error
`valuesMismatch`, performing no further work — in particular it never
reaches integration, and the potential constructor is never called. -/
theorem C7_mismatched_names_fail [Zero α]
    (gbf : π → Option BackendInst) (orbitFn : BackendInst → β → π → ℚ → Int → ℚ → γ)
    (measure : γ → α) (ic : FuncSource ℚ β) (vals : List (String × List ℚ))
    (pf : FuncSource0 π) (dt : ℚ) (steps : Int) (ps : ℚ)
    (bk : Option (String ⊕ BackendInst)) (ck : Int) (pb blank : Bool)
    (hkeys : (vals.map Prod.fst).Nodup) (hargs : ic.args.Nodup)
    (hne : ¬ ((∀ nm ∈ vals.map Prod.fst, nm ∈ ic.args) ∧
              (∀ nm ∈ ic.args, nm ∈ vals.map Prod.fst))) :
    AnalysisBase.init gbf orbitFn measure ic vals pf dt steps ps bk ck pb blank =
      (Except.error InitError.valuesMismatch, 0) := by
  have hsig : valuesMatchSig ic.args vals = false := by
    rw [← Bool.not_eq_true]
    intro hc
    rw [valuesMatchSig, Bool.and_eq_true, beq_iff_eq, List.all_eq_true] at hc
    obtain ⟨hlen, hall⟩ := hc
    apply hne
    have hsub : ∀ nm ∈ vals.map Prod.fst, nm ∈ ic.args := by
      intro nm hnm
      obtain ⟨p, hp, hpe⟩ := List.mem_map.mp hnm
      have hcont := hall p hp
      rw [List.contains, List.elem_iff] at hcont
      rw [← hpe]
      exact hcont
    have hlen2 : (vals.map Prod.fst).length = ic.args.length := by
      rw [List.length_map]
      exact hlen
    have hfin : (vals.map Prod.fst).toFinset = ic.args.toFinset := by
      apply Finset.eq_of_subset_of_card_le
      · intro a ha
        rw [List.mem_toFinset] at ha ⊢
        exact hsub a ha
      · rw [List.toFinset_card_of_nodup hargs, List.toFinset_card_of_nodup hkeys, hlen2]
    refine ⟨hsub, fun nm hnm => ?_⟩
    have hmem : nm ∈ ic.args.toFinset := List.mem_toFinset.mpr hnm
    rw [← hfin] at hmem
    exact List.mem_toFinset.mp hmem
  simp [AnalysisBase.init, hsig]

/-- Witness for C7: axes named `a`, `b` against a constructor declaring
`x`, `y` abort construction with the mismatch error before any work. -/
theorem C7_witness :
    AnalysisBase.init gbfNone orbId measId exIc [("a", [1, 2]), ("b", [3])] exPot 1 5 0
      (some (Sum.inl "galpy")) 1 true true = (Except.error InitError.valuesMismatch, 0) :=
  C7_mismatched_names_fail gbfNone orbId measId exIc [("a", [1, 2]), ("b", [3])] exPot 1 5 0
    (some (Sum.inl "galpy")) 1 true true (by decide) (by decide) (by decide)

/-- Claim C8: construction succeeds only when `0 < chunksize < size` (where
`size` is the product of the per-axis lengths in constructor order), and
every out-of-range batch size — zero, negative, equal to the grid size, or
greater — makes construction fail. -/
theorem C8_chunksize_bounds [Zero α]
    (gbf : π → Option BackendInst) (orbitFn : BackendInst → β → π → ℚ → Int → ℚ → γ)
    (measure : γ → α) (ic : FuncSource ℚ β) (vals : List (String × List ℚ))
    (pf : FuncSource0 π) (dt : ℚ) (steps : Int) (ps : ℚ)
    (bk : Option (String ⊕ BackendInst)) (ck : Int) (pb blank : Bool) :
    ((AnalysisBase.init gbf orbitFn measure ic vals pf dt steps ps bk ck pb blank).1.toBool
        = true → 0 < ck ∧ ck < (gridSize ic vals : Int)) ∧
    (ck ≤ 0 ∨ (gridSize ic vals : Int) ≤ ck →
      (AnalysisBase.init gbf orbitFn measure ic vals pf dt steps ps bk ck pb blank).1.toBool
        = false) := by
  constructor
  · intro h
    cases heq : (AnalysisBase.init gbf orbitFn measure ic vals pf dt steps ps bk ck pb
        blank).1 with
    | error e => rw [heq] at h; cases h
    | ok st =>
      obtain ⟨_, hshape, _, _, _, hck1, hck2, _⟩ := init_ok_inv heq
      have hgs : st.shape = gridShape ic vals := by
        rw [mapSome_eq_getD_map 0 hshape, gridShape]
        apply List.map_congr_left
        intro a _
        cases dictGet vals a <;> rfl
      refine ⟨hck1, ?_⟩
      rw [gridSize, ← hgs]
      exact hck2
  · intro hor
    cases heq : (AnalysisBase.init gbf orbitFn measure ic vals pf dt steps ps bk ck pb
        blank).1 with
    | error e => rfl
    | ok st =>
      obtain ⟨_, hshape, _, _, _, hck1, hck2, _⟩ := init_ok_inv heq
      have hgs : st.shape = gridShape ic vals := by
        rw [mapSome_eq_getD_map 0 hshape, gridShape]
        apply List.map_congr_left
        intro a _
        cases dictGet vals a <;> rfl
      rw [gridSize, ← hgs] at hor
      rcases hor with hor | hor
      · omega
      · omega

/-- Witness for C8: a succeeding construction on the 2×3 grid has its batch
size inside `(0, 6)`, and batch size 0 makes construction on the same grid
fail. -/
theorem C8_witness :
    ((0 : Int) < 1 ∧ (1 : Int) < (gridSize exIc exVals : Int)) ∧
    (AnalysisBase.init gbfNone orbId measId exIc exVals exPot 1 5 0
      (some (Sum.inl "galpy")) 0 true true).1.toBool = false :=
  ⟨(C8_chunksize_bounds gbfNone orbId measId exIc exVals exPot 1 5 0
      (some (Sum.inl "galpy")) 1 true true).1 (by decide),
   (C8_chunksize_bounds gbfNone orbId measId exIc exVals exPot 1 5 0
      (some (Sum.inl "galpy")) 0 true true).2 (Or.inl (by decide))⟩

/-- Claim C9: when the axis-name/constructor-parameter validation fails,
the configuration error is raised before the caller-supplied potential
constructor is ever invoked: `potential_function` is called zero times. -/
theorem C9_potential_not_called_on_mismatch [Zero α]
    (gbf : π → Option BackendInst) (orbitFn : BackendInst → β → π → ℚ → Int → ℚ → γ)
    (measure : γ → α) (ic : FuncSource ℚ β) (vals : List (String × List ℚ))
    (pf : FuncSource0 π) (dt : ℚ) (steps : Int) (ps : ℚ)
    (bk : Option (String ⊕ BackendInst)) (ck : Int) (pb blank : Bool)
    (h : valuesMatchSig ic.args vals = false) :
    (AnalysisBase.init gbf orbitFn measure ic vals pf dt steps ps bk ck pb blank).2 = 0 ∧
    (AnalysisBase.init gbf orbitFn measure ic vals pf dt steps ps bk ck pb blank).1 =
      Except.error InitError.valuesMismatch := by
  constructor <;> simp [AnalysisBase.init, h]

/-- Witness for C9: with a missing axis entry for `y`, the signature check
fails and the potential constructor is called zero times. -/
theorem C9_witness :
    (AnalysisBase.init gbfNone orbId measId exIc [("x", [1, 2])] exPot 1 5 0
      (some (Sum.inl "galpy")) 1 true true).2 = 0 ∧
    (AnalysisBase.init gbfNone orbId measId exIc [("x", [1, 2])] exPot 1 5 0
      (some (Sum.inl "galpy")) 1 true true).1 = Except.error InitError.valuesMismatch :=
  C9_potential_not_called_on_mismatch gbfNone orbId measId exIc [("x", [1, 2])] exPot 1 5 0
    (some (Sum.inl "galpy")) 1 true true (by decide)

/-- Counterexample to claim C3 (as stated): with a batch size of 0 (a Run
Parameter violation) and a backend name that cannot be resolved, the
constructor reports the backend-resolution error, not a Run Parameter
(chunksize) error — because the chunksize validations come after backend
resolution in `__init__`. -/
theorem C3_counterexample :
    (AnalysisBase.init gbfNone orbId measId exIc exVals exPot 1 5 0
      (some (Sum.inl "fake")) 0 true false).1 =
        Except.error (InitError.unrecognizedBackend "fake") ∧
    InitError.unrecognizedBackend "fake" ≠ InitError.chunksizeNonpositive ∧
    InitError.unrecognizedBackend "fake" ≠ InitError.chunksizeTooLarge :=
  ⟨rfl, by decide, by decide⟩

/-- Claim C3 as amended: at construction with a populated-image request, the
time step and step count are validated before backend resolution, but the
batch size is validated only after it; hence when both the batch size is
invalid and backend resolution fails, construction reports the
backend-resolution error. -/
theorem C3_amended_validation_order [Zero α]
    (gbf : π → Option BackendInst) (orbitFn : BackendInst → β → π → ℚ → Int → ℚ → γ)
    (measure : γ → α) (ic : FuncSource ℚ β) (vals : List (String × List ℚ))
    (pf : FuncSource0 π) (dt : ℚ) (steps : Int) (ps : ℚ)
    (bk : Option (String ⊕ BackendInst)) (ck : Int) (pb blank : Bool)
    (shape : List Nat)
    (hsig : valuesMatchSig ic.args vals = true)
    (hshape : mapSome (fun nm => (dictGet vals nm).map List.length) ic.args = some shape) :
    (make_quantity dt ≤ 0 →
      AnalysisBase.init gbf orbitFn measure ic vals pf dt steps ps bk ck pb blank =
        (Except.error InitError.dtNonpositive, 1)) ∧
    (0 < make_quantity dt → steps ≤ 0 →
      AnalysisBase.init gbf orbitFn measure ic vals pf dt steps ps bk ck pb blank =
        (Except.error InitError.stepsNonpositive, 1)) ∧
    (0 < make_quantity dt → 0 < steps →
      ∀ e, resolveBackend gbf (pf.fn ()) bk = Except.error e →
        AnalysisBase.init gbf orbitFn measure ic vals pf dt steps ps bk ck pb blank =
          (Except.error e, 1)) := by
  refine ⟨fun hdt => ?_, fun hdt hsteps => ?_, fun hdt hsteps e he => ?_⟩
  · simp [AnalysisBase.init, hsig, hshape, hdt]
  · simp [AnalysisBase.init, hsig, hshape, not_le.mpr hdt, hsteps]
  · simp [AnalysisBase.init, hsig, hshape, not_le.mpr hdt, not_le.mpr hsteps, he]

/-- Witness for the amended C3: an unresolvable backend name is reported
even while the batch size is also invalid (here −3). -/
theorem C3_amended_witness :
    AnalysisBase.init gbfNone orbId measId exIc exVals exPot 1 5 0
      (some (Sum.inl "nothere")) (-3) true true =
        (Except.error (InitError.unrecognizedBackend "nothere"), 1) :=
  (C3_amended_validation_order gbfNone orbId measId exIc exVals exPot 1 5 0
    (some (Sum.inl "nothere")) (-3) true true [2, 3] (by decide) (by decide)).2.2
    (by decide) (by decide) (InitError.unrecognizedBackend "nothere") rfl

/-- Claim C5: for a fixed configuration and a deterministic backend and
evaluator (embedded as per-coordinate functions), the image constructed in
compute mode is the same for any two valid batch sizes — batching does not
change the traversal or the written cells.  Determinism across repeated
runs is inherent: construction is a pure function of its inputs. -/
theorem C5_image_independent_of_chunksize [Zero α]
    (gbf : π → Option BackendInst) (orbitFn : BackendInst → β → π → ℚ → Int → ℚ → γ)
    (measure : γ → α) (ic : FuncSource ℚ β) (vals : List (String × List ℚ))
    (pf : FuncSource0 π) (dt : ℚ) (steps : Int) (ps : ℚ)
    (bk : Option (String ⊕ BackendInst)) (c1 c2 : Int) (pb1 pb2 : Bool)
    (b : BackendInst) (shape : List Nat)
    (hsig : valuesMatchSig ic.args vals = true)
    (hshape : mapSome (fun nm => (dictGet vals nm).map List.length) ic.args = some shape)
    (hdt : 0 < make_quantity dt) (hsteps : 0 < steps)
    (hb : resolveBackend gbf (pf.fn ()) bk = Except.ok b)
    (h11 : 0 < c1) (h12 : c1 < (shape.prod : Int))
    (h21 : 0 < c2) (h22 : c2 < (shape.prod : Int)) :
    (AnalysisBase.init gbf orbitFn measure ic vals pf dt steps ps bk c1 pb1 false).1.map
      (fun st => st.image) =
    (AnalysisBase.init gbf orbitFn measure ic vals pf dt steps ps bk c2 pb2 false).1.map
      (fun st => st.image) := by
  rw [init_ok_compute gbf orbitFn measure ic vals pf dt steps ps bk c1 pb1 hsig hshape
    hdt hsteps hb h11 h12]
  rw [init_ok_compute gbf orbitFn measure ic vals pf dt steps ps bk c2 pb2 hsig hshape
    hdt hsteps hb h21 h22]
  simp only [Except.map, construct_image_flat]

/-- Witness for C5: on the 2×3 grid with the identity backend/evaluator,
batch sizes 1 and 2 (with different progress-bar settings) produce the same
image. -/
theorem C5_witness :
    (AnalysisBase.init gbfNone orbId measId exIc exVals exPot 1 5 0
      (some (Sum.inl "galpy")) 1 true false).1.map (fun st => st.image) =
    (AnalysisBase.init gbfNone orbId measId exIc exVals exPot 1 5 0
      (some (Sum.inl "galpy")) 2 false false).1.map (fun st => st.image) :=
  C5_image_independent_of_chunksize gbfNone orbId measId exIc exVals exPot 1 5 0
    (some (Sum.inl "galpy")) 1 2 true false BackendInst.galpy [2, 3] (by decide)
    (by decide) (by decide) (by decide) rfl (by decide) (by decide) (by decide) (by decide)

/-- A container whose stored backend attribute is the class name
`AgamaBackend` (exactly what `save` stores for the agama implementation),
in the flat attribute namespace alongside the other reserved entries and
one axis. -/
def exC4Container : Container ℚ ℚ Unit :=
  { datasetName := "TessellationAnalysis"
    image := ⟨[2], [3, 4]⟩
    attrs := [("icfunc",
               AttrValue.icfuncSrc
                 { name := "ic_function", args := ["x"], fn := fun l => l.getD 0 0 }),
              ("potfunc",
               AttrValue.potfuncSrc { name := "potential_function", fn := fun _ => () }),
              ("dt", AttrValue.quantity 1),
              ("steps", AttrValue.intVal 5),
              ("pattern_speed", AttrValue.quantity 0),
              ("backend", AttrValue.textBlob "AgamaBackend"),
              ("x", AttrValue.axisValues [1, 2])] }

/-- A second container of the same kind, stored with the gala backend. -/
def exC4bContainer : Container ℚ ℚ Unit :=
  { datasetName := "TessellationAnalysis"
    image := ⟨[2], [3, 4]⟩
    attrs := [("icfunc",
               AttrValue.icfuncSrc
                 { name := "ic_function", args := ["x"], fn := fun l => l.getD 0 0 }),
              ("potfunc",
               AttrValue.potfuncSrc { name := "potential_function", fn := fun _ => () }),
              ("dt", AttrValue.quantity 1),
              ("steps", AttrValue.intVal 5),
              ("pattern_speed", AttrValue.quantity 0),
              ("backend", AttrValue.textBlob "GalaBackend"),
              ("x", AttrValue.axisValues [1, 2])] }

/-- Counterexample to claim C4 (as stated): the load path restores a backend
from the stored class name "AgamaBackend" through the pidgey module lookup,
while the construction-time registry — the table accepting exactly the
names `agama`, `gala`, `galpy` — rejects that very string.  The two lookups
are therefore not the same registry. -/
theorem C4_counterexample :
    (AnalysisBase.read_from_hdf5 "TessellationAnalysis" gbfNone orbId measId
        exC4Container).2.map (fun st => st.backend) = Except.ok BackendInst.agama ∧
    resolveBackend gbfNone () (some (Sum.inl "AgamaBackend")) =
      Except.error (InitError.unrecognizedBackend "AgamaBackend") :=
  ⟨rfl, rfl⟩

/-- Claim C4 as amended: on load, the backend is recovered by looking the
stored implementation class name up as an attribute of the pidgey module —
a lookup distinct from the constructor's `agama`/`gala`/`galpy` name table —
and (in this embedding of the module) only the class names `AgamaBackend`,
`GalaBackend` and `GalpyBackend` resolve, so only the closed implementation
set can be restored. -/
theorem C4_amended_backend_lookup [Zero α] [Inhabited β] [Inhabited π]
    (cn : String) (gbf : π → Option BackendInst)
    (orbitFn : BackendInst → β → π → ℚ → Int → ℚ → γ) (measure : γ → α)
    (f : Container α β π) :
    ((AnalysisBase.read_from_hdf5 cn gbf orbitFn measure f).2.map
        (fun st => some st.backend) =
      (AnalysisBase.read_from_hdf5 cn gbf orbitFn measure f).2.map
        (fun _ => (storedBackendName f).bind pidgeyAttr)) ∧
    ((AnalysisBase.read_from_hdf5 cn gbf orbitFn measure f).2.toBool = true →
      ∃ s, storedBackendName f = some s ∧
        (s = "AgamaBackend" ∨ s = "GalaBackend" ∨ s = "GalpyBackend")) := by
  cases hr : (AnalysisBase.read_from_hdf5 cn gbf orbitFn measure f).2 with
  | error e => exact ⟨rfl, fun hb => Bool.noConfusion hb⟩
  | ok st =>
    obtain ⟨s, hs1, hs2⟩ := Option.bind_eq_some.mp (read_ok_inv hr).2
    exact ⟨by simp only [Except.map, (read_ok_inv hr).2],
           fun _ => ⟨s, hs1, pidgeyAttr_inv hs2⟩⟩

/-- Witness for the amended C4: loading a container stored with the gala
backend succeeds, so its stored name is one of the three class names. -/
theorem C4_amended_witness :
    ∃ s, storedBackendName exC4bContainer = some s ∧
      (s = "AgamaBackend" ∨ s = "GalaBackend" ∨ s = "GalpyBackend") :=
  (C4_amended_backend_lookup "TessellationAnalysis" gbfNone orbId measId
    exC4bContainer).2 rfl

/-- A container whose stored image has shape `[5]` while its stored axes
and constructor determine the grid shape `[2, 3]`. -/
def exC10Container : Container ℚ ℚ Unit :=
  { datasetName := "TessellationAnalysis"
    image := ⟨[5], [0, 0, 0, 0, 0]⟩
    attrs := [("icfunc",
               AttrValue.icfuncSrc
                 { name := "ic_function", args := ["x", "y"],
                   fn := fun l => l.foldl (fun a b => a + b) 0 }),
              ("potfunc",
               AttrValue.potfuncSrc { name := "potential_function", fn := fun _ => () }),
              ("dt", AttrValue.quantity 1),
              ("steps", AttrValue.intVal 5),
              ("pattern_speed", AttrValue.quantity 0),
              ("backend", AttrValue.textBlob "GalpyBackend"),
              ("x", AttrValue.axisValues [1, 2]),
              ("y", AttrValue.axisValues [10, 20, 30])] }

/-- Claim C10: `read_from_hdf5` assigns the stored dataset array to the
instance's image verbatim after construction, with no check against the
grid shape derived from the reconstructed constructor and stored axes; a
loaded instance's image shape can therefore differ from its grid shape, as
the concrete container with image shape `[5]` over a `[2, 3]` grid shows. -/
theorem C10_image_assigned_verbatim :
    (∀ {α β π γ : Type} [Zero α] [Inhabited β] [Inhabited π] (cn : String)
        (gbf : π → Option BackendInst)
        (orbitFn : BackendInst → β → π → ℚ → Int → ℚ → γ) (measure : γ → α)
        (f : Container α β π),
        (AnalysisBase.read_from_hdf5 cn gbf orbitFn measure f).2.map (fun st => st.image) =
          (AnalysisBase.read_from_hdf5 cn gbf orbitFn measure f).2.map (fun _ => f.image)) ∧
    (AnalysisBase.read_from_hdf5 "TessellationAnalysis" gbfNone orbId measId
        exC10Container).2.map (fun st => (st.image.shape, st.shape)) =
      Except.ok ([5], [2, 3]) ∧
    ([5] : List Nat) ≠ [2, 3] := by
  refine ⟨?_, rfl, by decide⟩
  intro α β π γ instz instb instp cn gbf orbitFn measure f
  cases hr : (AnalysisBase.read_from_hdf5 cn gbf orbitFn measure f).2 with
  | error e => rfl
  | ok st => simp only [Except.map, (read_ok_inv hr).1]

/-- The container of claim C1: a saved analysis whose `icfunc` and `potfunc`
attributes are absent from the flat namespace. -/
def exC1Container : Container ℚ ℚ Unit :=
  { datasetName := "TessellationAnalysis"
    image := ⟨[3], [7, 8, 9]⟩
    attrs := [("dt", AttrValue.quantity 1),
              ("steps", AttrValue.intVal 5),
              ("pattern_speed", AttrValue.quantity 0),
              ("backend", AttrValue.textBlob "GalpyBackend"),
              ("x", AttrValue.axisValues [1, 2])] }

/-- Claim C1 is contradicted by the code: loading a container with absent
`icfunc`/`potfunc` metadata does emit the two diagnostic warnings and does
substitute no-argument no-op constructors, but the resulting degenerate
grid has `size = prod(()) = 1`, so the constructor's check
`chunksize >= size` (with the default `chunksize = 1`) raises
`ValueError` — the load does not succeed. -/
theorem C1_load_missing_sources_raises :
    AnalysisBase.read_from_hdf5 "TessellationAnalysis" gbfNone orbId measId exC1Container =
      (["No potential function defined.", "No potential function defined."],
        Except.error (LoadError.initError InitError.chunksizeTooLarge)) :=
  rfl

/-- Counterexample to claim C2 (as stated): an engine whose constructor
declares an axis named `dt` — colliding with the reserved attribute key
`dt` — constructs successfully with time step 1, but `save` overwrites the
reserved `dt` attribute with the axis array `[2]` (analysis.py:197-198
writes into the same flat `dset.attrs` namespace), and the load reads the
clobbered value back (analysis.py:244): the loaded instance has `dt = 2`,
not the original 1, so the round trip is not faithful for every
successfully constructed engine. -/
theorem C2_counterexample :
    (AnalysisBase.init gbfNone orbId measId exIcDt exValsDt exPot 1 5 0
        (some (Sum.inl "galpy")) 1 true true).1.toOption.map
      (fun st => ((AnalysisBase.read_from_hdf5 "TessellationAnalysis" gbfNone orbId measId
        (AnalysisBase.save "TessellationAnalysis" st)).2.map (fun st2 => st2.dt), st.dt)) =
      some (Except.ok 2, 1) ∧ (2 : ℚ) ≠ 1 :=
  ⟨rfl, by decide⟩

/-- Claim C2 as amended: for every successfully constructed engine whose
axis names are distinct (as Python dict keys are) and avoid the six
reserved attribute keys, saving and then loading yields an instance whose
image is identical to the original's, and whose `dt`, `steps`,
`pattern_speed`, axis names and per-axis value sequences are identical to
the original's.  (The loading side may use any implicit-resolution function
and evaluation strategy — they do not influence the restored data.) -/
theorem C2_amended_roundtrip [Zero α] [Inhabited β] [Inhabited π]
    (cn : String) (gbf : π → Option BackendInst)
    (orbitFn : BackendInst → β → π → ℚ → Int → ℚ → γ) (measure : γ → α)
    (gbf2 : π → Option BackendInst)
    (orbitFn2 : BackendInst → β → π → ℚ → Int → ℚ → γ2) (measure2 : γ2 → α)
    (ic : FuncSource ℚ β) (vals : List (String × List ℚ)) (pf : FuncSource0 π)
    (dt : ℚ) (steps : Int) (ps : ℚ) (bk : Option (String ⊕ BackendInst))
    (ck : Int) (pb blank : Bool)
    (hkeys : (vals.map Prod.fst).Nodup)
    (hres : ∀ nm ∈ vals.map Prod.fst, nm ∉ reservedAttrKeys) :
    (AnalysisBase.init gbf orbitFn measure ic vals pf dt steps ps bk ck pb
        blank).1.toOption.map
      (fun st => (AnalysisBase.read_from_hdf5 cn gbf2 orbitFn2 measure2
        (AnalysisBase.save cn st)).2.map
        (fun st2 => (st2.image, st2.dt, st2.steps, st2.pattern_speed, st2.axis_names,
          st2.axis_names.map (dictGet st2.values)))) =
    (AnalysisBase.init gbf orbitFn measure ic vals pf dt steps ps bk ck pb
        blank).1.toOption.map
      (fun st => Except.ok (st.image, st.dt, st.steps, st.pattern_speed, st.axis_names,
        st.axis_names.map (dictGet st.values))) := by
  cases heq : (AnalysisBase.init gbf orbitFn measure ic vals pf dt steps ps bk ck pb
      blank).1 with
  | error e => rfl
  | ok st =>
    obtain ⟨hsig, hshape, hdt, hsteps, hb, hck1, hck2, hic, hax, hvals, hsz, hpf, hdtq,
      hstp, hps, himg⟩ := init_ok_inv heq
    simp only [Except.toOption, Option.map_some']
    congr 1
    have hsa : savedAttrs st =
        vals.foldl (fun m p => attrsSet m p.1 (AttrValue.axisValues p.2))
          (reservedAttrs st) := by
      unfold savedAttrs
      rw [hvals]
    obtain ⟨raw, values2, h1, h2, h3, h4⟩ :=
      load_values_flat ic.args vals (reservedAttrs st) st.shape hkeys hshape
    have h_ic : dictGet
        (vals.foldl (fun m p => attrsSet m p.1 (AttrValue.axisValues p.2))
          (reservedAttrs st)) "icfunc" =
        some (AttrValue.icfuncSrc
          { name := "ic_function", args := st.ic_function.args,
            fn := st.ic_function.fn }) := by
      rw [dictGet_setAll_not_mem _ _ (fun hmem => hres _ hmem (by decide))]
      rfl
    have h_pot : dictGet
        (vals.foldl (fun m p => attrsSet m p.1 (AttrValue.axisValues p.2))
          (reservedAttrs st)) "potfunc" =
        some (AttrValue.potfuncSrc
          { name := "potential_function",
            fn := st.potential_function.fn }) := by
      rw [dictGet_setAll_not_mem _ _ (fun hmem => hres _ hmem (by decide))]
      rfl
    have h_dt : dictGet
        (vals.foldl (fun m p => attrsSet m p.1 (AttrValue.axisValues p.2))
          (reservedAttrs st)) "dt" = some (AttrValue.quantity st.dt) := by
      rw [dictGet_setAll_not_mem _ _ (fun hmem => hres _ hmem (by decide))]
      rfl
    have h_steps : dictGet
        (vals.foldl (fun m p => attrsSet m p.1 (AttrValue.axisValues p.2))
          (reservedAttrs st)) "steps" = some (AttrValue.intVal st.steps) := by
      rw [dictGet_setAll_not_mem _ _ (fun hmem => hres _ hmem (by decide))]
      rfl
    have h_ps : dictGet
        (vals.foldl (fun m p => attrsSet m p.1 (AttrValue.axisValues p.2))
          (reservedAttrs st)) "pattern_speed" =
        some (AttrValue.quantity st.pattern_speed) := by
      rw [dictGet_setAll_not_mem _ _ (fun hmem => hres _ hmem (by decide))]
      rfl
    have h_bk : dictGet
        (vals.foldl (fun m p => attrsSet m p.1 (AttrValue.axisValues p.2))
          (reservedAttrs st)) "backend" =
        some (AttrValue.textBlob (backendClassName st.backend)) := by
      rw [dictGet_setAll_not_mem _ _ (fun hmem => hres _ hmem (by decide))]
      rfl
    have hsig2 : valuesMatchSig ic.args values2 = true := by
      rw [valuesMatchSig, Bool.and_eq_true, beq_iff_eq, List.all_eq_true]
      refine ⟨by rw [← h3, List.length_map], fun p hp => ?_⟩
      rw [List.contains, List.elem_iff, ← h3]
      exact List.mem_map_of_mem Prod.fst hp
    have hshape2 : mapSome (fun nm => (dictGet values2 nm).map List.length) ic.args =
        some st.shape := by
      rw [mapSome_congr (fun a ha => by rw [h4 a ha])]
      exact hshape
    have hdt2 : 0 < make_quantity st.dt := by
      rw [hdtq]
      exact hdt
    have hsteps2 : 0 < st.steps := by
      rw [hstp]
      exact hsteps
    have hsz2 : (1 : Int) < (st.shape.prod : Int) := by omega
    simp only [AnalysisBase.read_from_hdf5, AnalysisBase.save, hsa, h_ic, h_pot, h_dt,
      h_steps, h_ps, h_bk, hic, hpf, h1, h2, attrAsText, attrAsQuantity, attrAsInt,
      pidgeyAttr_backendClassName, eq_self_iff_true, if_true]
    rw [init_ok_blank gbf2 orbitFn2 measure2
      { name := "ic_function", args := ic.args, fn := ic.fn } values2
      { name := "potential_function", fn := pf.fn } st.dt st.steps st.pattern_speed
      (some (Sum.inr st.backend)) 1 true hsig2 hshape2 hdt2 hsteps2 rfl (by decide) hsz2]
    simp only [Except.map, AnalysisBase.initState, make_quantity, hax, hvals]
    refine congrArg Except.ok ?_
    refine congrArg (Prod.mk st.image) ?_
    refine congrArg (Prod.mk st.dt) ?_
    refine congrArg (Prod.mk st.steps) ?_
    refine congrArg (Prod.mk st.pattern_speed) ?_
    refine congrArg (Prod.mk ic.args) ?_
    apply List.map_congr_left
    intro a ha
    exact h4 a ha

/-- Witness for the amended C2: the 2×3 engine over axes `x`, `y` (names
disjoint from the reserved keys) round-trips through save and load with
image, dt, steps, pattern speed, axis names and per-axis values intact. -/
theorem C2_amended_witness :
    (AnalysisBase.init gbfNone orbId measId exIc exVals exPot 1 5 0
        (some (Sum.inl "galpy")) 1 true true).1.toOption.map
      (fun st => (AnalysisBase.read_from_hdf5 "TessellationAnalysis" gbfNone orbId measId
        (AnalysisBase.save "TessellationAnalysis" st)).2.map
        (fun st2 => (st2.image, st2.dt, st2.steps, st2.pattern_speed, st2.axis_names,
          st2.axis_names.map (dictGet st2.values)))) =
    (AnalysisBase.init gbfNone orbId measId exIc exVals exPot 1 5 0
        (some (Sum.inl "galpy")) 1 true true).1.toOption.map
      (fun st => Except.ok (st.image, st.dt, st.steps, st.pattern_speed, st.axis_names,
        st.axis_names.map (dictGet st.values))) :=
  C2_amended_roundtrip "TessellationAnalysis" gbfNone orbId measId gbfNone orbId measId
    exIc exVals exPot 1 5 0 (some (Sum.inl "galpy")) 1 true true (by decide) (by decide)

end Commensurability
